import Mathlib

/-!
Verification development for the Exotel <-> Sarvam voice-bridge
(`ai_agent_v2.py` and companions).  Python byte strings are embedded as
`List Nat` (each element a byte value), text as `List Char`.  Fallible
operations (ones that raise in Python) return `Option`.  The per-call
WebSocket handler `ws_bridge` is embedded as a step function over an
explicit session state; the surrounding event loop becomes a fold over a
list of inputs (telephony messages, STT upstream messages, TTS upstream
messages), which models the asyncio interleaving at `await` granularity.
-/

/-! ## Bot content (`run_sales_pitch`, `FAQ_BANK`, `get_bot_reply`) -/

/-- `run_sales_pitch` from the source (the literal text, including the
mojibake apostrophe present in the file). -/
def run_sales_pitch : List Char :=
  "Hi! I‚Äôm calling from Rupeek. You have a pre-approved personal loan offer. Would you like to check your loan eligibility now?".data

/-- Reply for a message containing "yes". -/
def yesReply : List Char :=
  "Great! Please open the Rupeek app. I will guide you step by step.".data

/-- Reply for a message containing "no". -/
def noReply : List Char := "No worries. Have a nice day!".data

/-- Fallback reply. -/
def fallbackReply : List Char := "Sorry, could you please repeat that?".data

/-- `FAQ_BANK` from the source: keyword variants paired with answers. -/
def FAQ_BANK : List (List (List Char) × List Char) :=
  [(["interest rate".data, "rate of interest".data, "roi".data],
    "The interest rate is personalized. Check the loan summary in the Rupeek app.".data),
   (["open the rupeek app".data, "open app".data],
    "Please open the Rupeek app and I will guide you step by step.".data)]

/-- Does `hay` start with `needle`?  (Helper for Python `in`.) -/
def startsWithChars : List Char → List Char → Bool
  | [], _ => true
  | _ :: _, [] => false
  | a :: as, b :: bs => a == b && startsWithChars as bs

/-- Python substring containment `needle in hay` on `str`. -/
def containsChars (needle : List Char) : List Char → Bool
  | [] => startsWithChars needle []
  | b :: bs => startsWithChars needle (b :: bs) || containsChars needle bs

/-- First-match FAQ lookup: the `for variants, ans in FAQ_BANK` loop of
`get_bot_reply`, returning the fallback when nothing matches. -/
def faqLookup : List (List (List Char) × List Char) → List Char → List Char
  | [], _ => fallbackReply
  | (variants, ans) :: rest, m =>
    if variants.any (fun v => containsChars v m) then ans else faqLookup rest m

/-- `get_bot_reply(user_message)` from the source.  `none` models Python
`None`; `some []` models the empty string (both falsy). -/
def get_bot_reply (userMessage : Option (List Char)) : List Char :=
  match userMessage with
  | none => run_sales_pitch
  | some msg =>
    if msg = [] then run_sales_pitch
    else
      let m := msg.map Char.toLower
      if containsChars "yes".data m then yesReply
      else if containsChars "no".data m then noReply
      else faqLookup FAQ_BANK m

/-! ## Audio helpers: `is_wav` -/

/-- The 4-byte RIFF magic `b"RIFF"`. -/
def riffMagic : List Nat := [82, 73, 70, 70]

/-- `is_wav(b)` from the source: `b[:4] == b"RIFF"` (Python slicing never
raises; a short input yields a short slice, which compares unequal). -/
def is_wav (b : List Nat) : Bool := b.take 4 == riffMagic

/-! ## STT receiver loop (`stt_receiver_loop`) -/

/-- One upstream STT WebSocket message as dispatched by the receiver loop:
a `{"type":"data"}` message carrying a (possibly empty) transcript, a
`{"type":"events"}` message carrying a `signal_type`, or anything else
(non-text frames, unknown types) which the loop skips. -/
inductive SttMsg where
  | dataMsg (tx : List Char)
  | eventsMsg (sig : List Char)
  | otherMsg
deriving DecidableEq

/-- The `END_SPEECH` voice-activity signal string. -/
def endSpeechSig : List Char := "END_SPEECH".data

/-- One iteration of the body of `stt_receiver_loop`: state is the buffered
latest partial transcript together with the contents of `transcripts_q`
(which the loop only ever appends to, via `transcripts_q.put`). -/
def sttReceiverStep : List Char × List (List Char) → SttMsg → List Char × List (List Char)
  | (buf, out), .dataMsg tx => if tx = [] then (buf, out) else (tx, out)
  | (buf, out), .eventsMsg sig =>
    if sig = endSpeechSig then
      if buf = [] then (buf, out) else ([], out ++ [buf])
    else (buf, out)
  | (buf, out), .otherMsg => (buf, out)

/-! ## μ-law codec.

Modelled from the spec: the source only imports the standard `audioop`
module (it never calls it), and §4.2 of the spec specifies
`pcm16FromMulaw` as the standard 8-bit μ-law expansion to 16-bit signed
little-endian linear PCM and `mulawFromPcm16` as its lossy inverse.  The
definitions below follow the CCITT G.711 reference algorithm exactly as
implemented by CPython's `audioop` (`st_ulaw2linear16` /
`st_14linear2ulaw` with BIAS 0x84 and CLIP 8159). -/

/-- Expand one μ-law byte to a 16-bit signed linear sample (the closed
form of the `st_ulaw2linear16` table). -/
def ulawDecodeByte (u : Nat) : Int :=
  let c := 255 - u % 256
  let t : Int := Int.ofNat (((c % 16) * 8 + 132) * 2 ^ (c / 16 % 8))
  if 128 ≤ c then 132 - t else t - 132

/-- Compress one 16-bit signed linear sample to a μ-law byte
(`st_14linear2ulaw(sample >> 2)` with BIAS>>2 = 33 and CLIP 8159). -/
def ulawEncodeSample (s : Int) : Nat :=
  let p := Int.fdiv s 4
  let mask : Nat := if p < 0 then 127 else 255
  let mag : Nat := min (if p < 0 then (-p).toNat else p.toNat) 8159
  let v := mag + 33
  if 8191 < v then 127 ^^^ mask
  else
    let seg : Nat :=
      if v ≤ 63 then 0 else if v ≤ 127 then 1 else if v ≤ 255 then 2
      else if v ≤ 511 then 3 else if v ≤ 1023 then 4 else if v ≤ 2047 then 5
      else if v ≤ 4095 then 6 else 7
    (seg * 16 + v / 2 ^ (seg + 1) % 16) ^^^ mask

/-- The two little-endian bytes of a 16-bit signed sample. -/
def int16ToBytes (v : Int) : List Nat :=
  [(v % 65536).toNat % 256, (v % 65536).toNat / 256]

/-- Read consecutive little-endian byte pairs as 16-bit signed samples. -/
def bytesToInt16 : List Nat → List Int
  | lo :: hi :: rest =>
    (if lo + 256 * hi < 32768 then ((lo + 256 * hi : Nat) : Int)
     else ((lo + 256 * hi : Nat) : Int) - 65536) :: bytesToInt16 rest
  | _ => []

/-- `pcm16FromMulaw`: expand a μ-law byte string to PCM16 bytes
(`audioop.ulaw2lin(bs, 2)`). -/
def pcm16FromMulaw (bs : List Nat) : List Nat :=
  (bs.map (fun u => int16ToBytes (ulawDecodeByte u))).flatten

/-- `mulawFromPcm16`: compress PCM16 bytes to μ-law
(`audioop.lin2ulaw(bs, 2)`; raises on an odd byte count, hence `Option`). -/
def mulawFromPcm16 (bs : List Nat) : Option (List Nat) :=
  if bs.length % 2 = 0 then some ((bytesToInt16 bs).map ulawEncodeSample)
  else none

/-! ## WAV container (`wav_bytes_from_linear16`, `strip_wav_header_and_return_pcm`)

`wav_bytes_from_linear16` delegates to the stdlib `wave` module writer
(mono, 16-bit); the writer produces exactly a 44-byte RIFF/WAVE header
followed by the raw frames, and raises (`struct.error` / `wave.Error`)
when a size field overflows 32 bits or the frame rate is not positive —
hence the `Option`.  `strip_wav_header_and_return_pcm` delegates to the
`wave` reader: it checks the RIFF/WAVE magic, walks the chunk list
(skipping unknown chunks with even padding), parses the `fmt ` chunk
(PCM format tag required) before accepting `data`, and returns
`nframes * framesize` bytes where `nframes = dataSize / framesize`;
any malformed input raises, modelled as `none`. -/

/-- Little-endian 32-bit encoding (`struct '<L'` on an in-range value). -/
def u32leBytes (n : Nat) : List Nat :=
  [n % 256, n / 256 % 256, n / 65536 % 256, n / 16777216 % 256]

/-- Little-endian 16-bit encoding. -/
def u16leBytes (n : Nat) : List Nat := [n % 256, n / 256 % 256]

/-- Little-endian 32-bit decoding of (up to) four bytes. -/
def u32dec (l : List Nat) : Nat :=
  l.getD 0 0 + 256 * l.getD 1 0 + 65536 * l.getD 2 0 + 16777216 * l.getD 3 0

/-- Little-endian 16-bit decoding of (up to) two bytes. -/
def u16dec (l : List Nat) : Nat := l.getD 0 0 + 256 * l.getD 1 0

/-- The 4-byte `b"WAVE"` form tag. -/
def waveMagic : List Nat := [87, 65, 86, 69]

/-- The 4-byte `b"fmt "` chunk id. -/
def fmtMagic : List Nat := [102, 109, 116, 32]

/-- The 4-byte `b"data"` chunk id. -/
def dataMagic : List Nat := [100, 97, 116, 97]

/-- The 44-byte header the `wave` writer emits for mono 16-bit PCM of
`n` data bytes at frame rate `rate`. -/
def wavHeader (n rate : Nat) : List Nat :=
  riffMagic ++ u32leBytes (36 + n) ++ waveMagic ++
  fmtMagic ++ u32leBytes 16 ++ u16leBytes 1 ++ u16leBytes 1 ++
  u32leBytes rate ++ u32leBytes (2 * rate) ++ u16leBytes 2 ++ u16leBytes 16 ++
  dataMagic ++ u32leBytes n

/-- `wav_bytes_from_linear16(pcm_lin16, sample_rate)` from the source
(this is the spec's `wavWrap`). -/
def wav_bytes_from_linear16 (pcm : List Nat) (rate : Nat) : Option (List Nat) :=
  if 0 < rate ∧ 2 * rate < 4294967296 ∧ 36 + pcm.length < 4294967296 then
    some (wavHeader pcm.length rate ++ pcm)
  else none

/-- Parse the body of a `fmt ` chunk as the `wave` reader does: format
tag must be 1 (PCM), channel count nonzero, sample width nonzero;
returns the frame size `nchannels * sampwidth`. -/
def parseFmtChunk (body : List Nat) : Option Nat :=
  if body.length < 16 then none
  else
    let tag := u16dec (body.take 2)
    let ch := u16dec ((body.drop 2).take 2)
    let bits := u16dec ((body.drop 14).take 2)
    if tag = 1 ∧ ch ≠ 0 ∧ (bits + 7) / 8 ≠ 0 then some (ch * ((bits + 7) / 8))
    else none

/-- Walk the RIFF chunk list looking for `data`, remembering the frame
size once `fmt ` has been parsed (the reader rejects `data` before
`fmt `).  `fuel` bounds the recursion (each step consumes ≥ 8 bytes). -/
def findChunks : Nat → Option Nat → List Nat → Option (List Nat)
  | 0, _, _ => none
  | fuel + 1, frameSize, b =>
    if b.length < 8 then none
    else
      let cid := b.take 4
      let sz := u32dec ((b.drop 4).take 4)
      let body := b.drop 8
      if cid = dataMagic then
        match frameSize with
        | none => none
        | some fr => if fr = 0 then none else some ((body.take sz).take (sz / fr * fr))
      else if cid = fmtMagic then
        match parseFmtChunk (body.take sz) with
        | none => none
        | some fr => findChunks fuel (some fr) (body.drop (sz + sz % 2))
      else findChunks fuel frameSize (body.drop (sz + sz % 2))

/-- `strip_wav_header_and_return_pcm(wav_bytes)` from the source (the
spec's `pcmFromWav`): open the buffer with the `wave` reader and return
`readframes(getnframes())`. -/
def strip_wav_header_and_return_pcm (b : List Nat) : Option (List Nat) :=
  if b.take 4 = riffMagic ∧ (b.drop 8).take 4 = waveMagic then
    findChunks b.length none ((b.drop 8).drop 4)
  else none

/-! ## Session model: the `ws_bridge` handler

A `ws_bridge` session is embedded as a step function over an explicit
state.  The four cooperating coroutines (the main Exotel read loop, the
STT receiver task, and the greeting-playback task reading the TTS
socket) are folded into one step relation over a tagged input type; a
session execution is a fold over an input list.  Effects observable
outside the state (wire events to the telephony socket, sends to the
STT/TTS upstreams, log records) are returned as actions.  The base64
decoder is a parameter of the environment (stdlib); the timestamp field
of media events and the debug-WAV dumps are omitted (pure IO, inspected
by no caller). -/

/-- An outbound telephony wire event.  `payload` of a media event is the
decoded (pre-base64) audio frame; `seqn` is `sequence_number`. -/
inductive WireEvent where
  | media (seqn : Nat) (sid : List Char) (chunk : Nat) (payload : List Nat)
  | mark (seqn : Nat) (sid : List Char) (name : List Char)
deriving DecidableEq

/-- An observable effect of one step. -/
inductive BridgeAction where
  | wire (ev : WireEvent)
  | sttSend (pcm : List Nat)
  | ttsConfig
  | ttsText (t : List Char)
  | ttsFlush
  | logWarn
  | logInfo
  | logDebug
  | logErr
deriving DecidableEq

/-- A parsed Exotel JSON event (`data.get("event")` dispatch). -/
inductive ExotelEvent where
  | connected
  | start (sid : Option (List Char)) (sr : Option (Option Nat))
  | media (payload : Option (List Char)) (chunkField : Option Nat)
  | markEv (name : List Char)
  | stop
  | unknown
deriving DecidableEq

/-- One message delivered to the main read loop: a text frame whose JSON
fails to parse, a text frame parsing to a non-object (whose `.get` then
raises outside any `try`), a parsed event object, a binary frame, or the
transport disconnect. -/
inductive InMsg where
  | malformedText
  | nonObjectText
  | evt (e : ExotelEvent)
  | binary (raw : List Nat)
  | disconnect
deriving DecidableEq

/-- One message from the TTS upstream as read by
`send_initial_greeting_and_wait_finish`. -/
inductive TtsMsg where
  | audio (payload : Option (List Char))
  | eventMsg (eventType : List Char)
  | errorMsg
  | otherText
  | nonText
deriving DecidableEq

/-- One input to the session: a telephony message, an STT upstream
message (consumed by `stt_receiver_loop`), or a TTS upstream message
(consumed by the greeting task while it is active). -/
inductive SessionInput where
  | fromExotel (m : InMsg)
  | fromStt (m : SttMsg)
  | fromTts (m : TtsMsg)
deriving DecidableEq

/-- The environment: whether the two upstream connects succeed, and the
stdlib base64 decoder (`None` models a `binascii`/`TypeError` raise). -/
structure Env where
  ttsOk : Bool
  sttOk : Bool
  b64 : List Char → Option (List Nat)

/-- The per-call mutable state of `ws_bridge`. -/
structure SessionState where
  streamSid : Option (List Char)
  exotelSampleRate : Nat
  sttConnected : Bool
  ttsConnected : Bool
  bufferedTx : List Char
  transcriptsQ : List (List Char)
  greetingActive : Bool
  seq : Nat
  chunk : Nat
  closed : Bool
deriving DecidableEq

/-- The state on `await websocket.accept()`: `sequence_number = 1`,
`chunk_index = 1`, default sample rate, no upstream connections. -/
def initialState : SessionState :=
  { streamSid := none, exotelSampleRate := 8000, sttConnected := false,
    ttsConnected := false, bufferedTx := [], transcriptsQ := [],
    greetingActive := false, seq := 1, chunk := 1, closed := false }

/-- The greeting text sent to TTS (`run_sales_pitch()`). -/
def greetingText : List Char := run_sales_pitch

/-- The TTS `event_type` string ending a turn normally. -/
def finalEventType : List Char := "final".data

/-- The TTS `event_type` string reporting a synthesis error. -/
def errorEventType : List Char := "error".data

/-- The mark name sent after the greeting audio. -/
def greetingEndName : List Char := "greeting_end".data

/-- Fuel-indexed body of the greeting chunking loop
(`while idx < total`), structurally recursive so it evaluates.  One
frame is consumed per iteration, so `pcm.length` fuel always suffices. -/
def chunkFramesGo : Nat → List Nat → List (List Nat)
  | 0, _ => []
  | fuel + 1, pcm =>
    if pcm = [] then []
    else
      (if (pcm.take 1600).length < 1600 then
        pcm.take 1600 ++ List.replicate (1600 - (pcm.take 1600).length) 0
       else pcm.take 1600) :: chunkFramesGo fuel (pcm.drop 1600)

/-- Re-chunk one TTS audio buffer into `frame_bytes = 1600`-byte frames,
zero-padding the final short fragment (the `while idx < total` loop of
`send_initial_greeting_and_wait_finish`). -/
def chunkFrames (pcm : List Nat) : List (List Nat) := chunkFramesGo pcm.length pcm

/-- Emit one media wire event per frame, incrementing `sequence_number`
and `chunk_index` per event; returns the final counters and the events
in emission order. -/
def emitFrames (sid : List Char) : Nat → Nat → List (List Nat) → Nat × Nat × List WireEvent
  | sq, ck, [] => (sq, ck, [])
  | sq, ck, f :: fs =>
    let r := emitFrames sid (sq + 1) (ck + 1) fs
    (r.1, r.2.1, WireEvent.media sq sid ck f :: r.2.2)

/-- `forward_inbound_media_to_stt(pcm16)`: connect the STT upstream if
necessary (`start_sarvam_stt`, which logs and leaves `stt_ws = None` on
failure), then send the chunk when a connection exists. -/
def forwardToStt (env : Env) (s : SessionState) (pcm : List Nat) : SessionState × List BridgeAction :=
  if s.sttConnected then (s, [.sttSend pcm])
  else if env.sttOk then ({ s with sttConnected := true }, [.logInfo, .sttSend pcm])
  else (s, [.logErr])

/-- `payload_b64 = media.get("payload") or media.get("chunk")` with
Python truthiness: an empty payload string and a zero chunk index are
falsy.  `inl` is a string payload, `inr` the integer chunk field (whose
later `b64decode` raises `TypeError`). -/
def mediaPayloadField (payload : Option (List Char)) (chunkField : Option Nat) :
    Option (List Char ⊕ Nat) :=
  let fromChunk : Option (List Char ⊕ Nat) :=
    match chunkField with
    | some c => if c = 0 then none else some (Sum.inr c)
    | none => none
  match payload with
  | some pl => if pl = [] then fromChunk else some (Sum.inl pl)
  | none => fromChunk

/-- Handle one parsed Exotel event (the `if evt == ...` chain of the
main read loop). -/
def handleEvent (env : Env) (s : SessionState) (e : ExotelEvent) : SessionState × List BridgeAction :=
  match e with
  | .connected => (s, [.logInfo])
  | .start sid srField =>
    let s1 := { s with streamSid := sid }
    let s2 :=
      match srField with
      | none => s1
      | some (some n) => { s1 with exotelSampleRate := n }
      | some none => { s1 with exotelSampleRate := 8000 }
    let r3 : SessionState × List BridgeAction :=
      if s2.ttsConnected then (s2, [])
      else if env.ttsOk then ({ s2 with ttsConnected := true }, [.ttsConfig, .logInfo])
      else (s2, [.logErr])
    if r3.1.ttsConnected ∧ r3.1.streamSid.isSome then
      ({ r3.1 with greetingActive := true }, r3.2 ++ [.ttsText greetingText, .ttsFlush])
    else (r3.1, r3.2 ++ [.logInfo])
  | .media payload chunkField =>
    (match mediaPayloadField payload chunkField with
     | some (.inl pl) =>
       (match env.b64 pl with
        | none => (s, [.logWarn])
        | some raw =>
          if is_wav raw then
            match strip_wav_header_and_return_pcm raw with
            | none => (s, [.logWarn])
            | some pcm => forwardToStt env s pcm
          else forwardToStt env s raw)
     | some (.inr _) => (s, [.logWarn])
     | none => (s, [.logDebug]))
  | .markEv _ => (s, [.logInfo])
  | .stop => ({ s with closed := true }, [.logInfo])
  | .unknown => (s, [.logDebug])

/-- Handle one TTS upstream message inside the greeting-playback loop.
A decode failure inside the loop escapes its `try` and kills the task
without a mark; a `final`/`error` event (or a top-level `error` message)
breaks the loop and then the `greeting_end` mark is sent. -/
def handleTts (env : Env) (s : SessionState) (m : TtsMsg) : SessionState × List BridgeAction :=
  if s.greetingActive = false then (s, [])
  else
    match m with
    | .audio none => (s, [])
    | .audio (some b64payload) =>
      (match env.b64 b64payload with
       | none => ({ s with greetingActive := false }, [.logErr])
       | some raw =>
         match (if is_wav raw then strip_wav_header_and_return_pcm raw else some raw) with
         | none => ({ s with greetingActive := false }, [.logErr])
         | some pcm =>
           let r := emitFrames (s.streamSid.getD []) s.seq s.chunk (chunkFrames pcm)
           ({ s with seq := r.1, chunk := r.2.1 }, (r.2.2).map .wire))
    | .eventMsg et =>
      if et = finalEventType ∨ et = errorEventType then
        ({ s with greetingActive := false, seq := s.seq + 1 },
         [.wire (.mark s.seq (s.streamSid.getD []) greetingEndName)])
      else (s, [])
    | .errorMsg =>
      ({ s with greetingActive := false, seq := s.seq + 1 },
       [.wire (.mark s.seq (s.streamSid.getD []) greetingEndName)])
    | .otherText => (s, [])
    | .nonText => (s, [])

/-- One step of the session: dispatch one input to the loop that
consumes it.  After the main loop has ended (`closed`), no coroutine
processes further input. -/
def sessionStep (env : Env) (s : SessionState) (i : SessionInput) : SessionState × List BridgeAction :=
  if s.closed then (s, [])
  else
    match i with
    | .fromExotel .malformedText => (s, [.logWarn])
    | .fromExotel .nonObjectText => ({ s with closed := true }, [.logErr])
    | .fromExotel .disconnect => ({ s with closed := true }, [.logWarn])
    | .fromExotel (.evt e) => handleEvent env s e
    | .fromExotel (.binary raw) =>
      if is_wav raw then
        match strip_wav_header_and_return_pcm raw with
        | none => ({ s with closed := true }, [.logErr])
        | some pcm => forwardToStt env s pcm
      else forwardToStt env s raw
    | .fromStt m =>
      let r := sttReceiverStep (s.bufferedTx, s.transcriptsQ) m
      ({ s with bufferedTx := r.1, transcriptsQ := r.2 }, [])
    | .fromTts m => handleTts env s m

/-- A session execution: fold `sessionStep` over an input list,
concatenating the emitted actions. -/
def sessionRun (env : Env) (s : SessionState) : List SessionInput → SessionState × List BridgeAction
  | [] => (s, [])
  | i :: is =>
    let r := sessionStep env s i
    let r2 := sessionRun env r.1 is
    (r2.1, r.2 ++ r2.2)

/-- The wire events among a list of actions, in order. -/
def wireEvts (as : List BridgeAction) : List WireEvent :=
  as.filterMap (fun a => match a with | .wire ev => some ev | _ => none)

/-- The `sequence_number` of a wire event. -/
def seqOfEvent : WireEvent → Nat
  | .media sq _ _ _ => sq
  | .mark sq _ _ => sq

/-- The `chunk` index of a media wire event. -/
def chunkOfEvent : WireEvent → Option Nat
  | .media _ _ ck _ => some ck
  | .mark _ _ _ => none

/-- The decoded payload of a media wire event. -/
def payloadOfEvent : WireEvent → Option (List Nat)
  | .media _ _ _ pl => some pl
  | .mark _ _ _ => none

/-- All wire events a session emits on the telephony socket, from the
accept state. -/
def sessionWire (env : Env) (inputs : List SessionInput) : List WireEvent :=
  wireEvts (sessionRun env initialState inputs).2

/-! ## Concrete inputs used by witnesses -/

/-- A demo environment: both upstream connects succeed; the base64
decoder returns a fixed two-byte PCM buffer. -/
def demoEnv : Env := ⟨true, true, fun _ => some [7, 7]⟩

/-- A demo session: `start`, one TTS audio chunk, the TTS final event. -/
def demoGreetingInputs : List SessionInput :=
  [.fromExotel (.evt (.start (some ['S']) none)),
   .fromTts (.audio (some ['x'])),
   .fromTts (.eventMsg "final".data)]

/-- A demo session producing a single wire event: `start`, then the TTS
final event (the greeting turn has no audio, only the closing mark). -/
def demoMarkInputs : List SessionInput :=
  [.fromExotel (.evt (.start (some ['S']) none)),
   .fromTts (.eventMsg "final".data)]

/-- A demo STT exchange: two partials, then `END_SPEECH`. -/
def demoSttInputs : List SessionInput :=
  [.fromStt (.dataMsg "hel".data), .fromStt (.dataMsg "hello".data),
   .fromStt (.eventsMsg endSpeechSig)]

/-! # Theorems -/

/-! ## C9: totality and meaning of `is_wav` -/

/-- C9: `is_wav` is total over all byte strings (it is a Lean function
into `Bool`, so totality is by construction — Python's `b[:4]` never
raises on short input) and returns `true` exactly when the input is at
least 4 bytes long and its first 4 bytes are the RIFF magic; in
particular every input shorter than 4 bytes yields `false`. -/
theorem c9_is_wav_total_and_correct (b : List Nat) :
    is_wav b = true ↔ 4 ≤ b.length ∧ b.take 4 = riffMagic := by
  unfold is_wav
  rw [beq_iff_eq]
  constructor
  · intro h
    refine ⟨?_, h⟩
    have := congrArg List.length h
    simp [riffMagic] at this
    omega
  · intro h
    exact h.2

/-! ## C4: the STT receiver loop -/

/-- C4: for the receiver-loop state machine, (1) a non-empty partial
transcript overwrites the single buffered latest-partial value and emits
nothing; (2) `END_SPEECH` with a non-empty buffer emits exactly one
final transcript — the buffered partial — and resets the buffer;
(3) `END_SPEECH` with an empty buffer emits nothing. -/
theorem c4_stt_receiver_step :
    (∀ buf out tx, tx ≠ [] →
      sttReceiverStep (buf, out) (.dataMsg tx) = (tx, out)) ∧
    (∀ buf out, buf ≠ [] →
      sttReceiverStep (buf, out) (.eventsMsg endSpeechSig) = ([], out ++ [buf])) ∧
    (∀ out, sttReceiverStep ([], out) (.eventsMsg endSpeechSig) = ([], out)) := by
  refine ⟨?_, ?_, ?_⟩
  · intro buf out tx htx
    simp [sttReceiverStep, htx]
  · intro buf out hbuf
    simp [sttReceiverStep, hbuf]
  · intro out
    simp [sttReceiverStep]

/-- Witness for C4 at concrete inputs ("hello" buffered, then the
`END_SPEECH` signal promotes it). -/
theorem c4_stt_receiver_step_witness :
    sttReceiverStep ("hel".data, []) (.dataMsg "hello".data) = ("hello".data, []) ∧
    sttReceiverStep ("hello".data, []) (.eventsMsg endSpeechSig) = ([], ["hello".data]) ∧
    sttReceiverStep ([], ["hello".data]) (.eventsMsg endSpeechSig) = ([], ["hello".data]) :=
  ⟨c4_stt_receiver_step.1 "hel".data [] "hello".data (by decide),
   c4_stt_receiver_step.2.1 "hello".data [] (by decide),
   c4_stt_receiver_step.2.2 ["hello".data]⟩

/-! ## C10: `get_bot_reply` -/

/-- `containsChars` on an empty haystack with a non-empty needle is
false. -/
theorem containsChars_nil_of_ne (needle : List Char) (h : needle ≠ []) :
    containsChars needle [] = false := by
  cases needle with
  | nil => exact absurd rfl h
  | cons a as => simp [containsChars, startsWithChars]

/-- `faqLookup` never returns the empty string on the source's FAQ bank
(every answer and the fallback are non-empty). -/
theorem faqLookup_ne_nil (m : List Char) : faqLookup FAQ_BANK m ≠ [] := by
  unfold FAQ_BANK faqLookup
  split
  · decide
  · unfold faqLookup
    split
    · decide
    · unfold faqLookup
      decide

/-- C10: `get_bot_reply` is a total deterministic function (it is a Lean
function).  `None` and the empty string yield the sales pitch; any
message whose lowercase form contains "yes" yields the app-guidance
reply (highest priority — regardless of "no" or FAQ keywords); "no" is
checked next; the FAQ bank is consulted in listed order (a message
matching the first entry gets its answer even if it also matches the
second); and no input ever yields an empty reply. -/
theorem c10_get_bot_reply_spec :
    get_bot_reply none = run_sales_pitch ∧
    get_bot_reply (some []) = run_sales_pitch ∧
    (∀ msg, containsChars "yes".data (msg.map Char.toLower) = true →
      get_bot_reply (some msg) = yesReply) ∧
    (∀ msg, containsChars "yes".data (msg.map Char.toLower) = false →
      containsChars "no".data (msg.map Char.toLower) = true →
      get_bot_reply (some msg) = noReply) ∧
    (∀ msg, msg ≠ [] → containsChars "yes".data (msg.map Char.toLower) = false →
      containsChars "no".data (msg.map Char.toLower) = false →
      containsChars "interest rate".data (msg.map Char.toLower) = true →
      get_bot_reply (some msg) =
        "The interest rate is personalized. Check the loan summary in the Rupeek app.".data) ∧
    (∀ userMessage, get_bot_reply userMessage ≠ []) := by
  refine ⟨rfl, by simp [get_bot_reply], ?_, ?_, ?_, ?_⟩
  · intro msg h
    have hne : msg ≠ [] := by
      intro he
      rw [he] at h
      simp only [List.map_nil] at h
      rw [containsChars_nil_of_ne "yes".data (by decide)] at h
      exact absurd h (by decide)
    simp only [get_bot_reply, if_neg hne, h, if_true]
  · intro msg hyes hno
    have hne : msg ≠ [] := by
      intro he
      rw [he] at hno
      simp only [List.map_nil] at hno
      rw [containsChars_nil_of_ne "no".data (by decide)] at hno
      exact absurd hno (by decide)
    simp only [get_bot_reply, if_neg hne, hyes, hno]
    simp
  · intro msg hne hyes hno hroi
    simp only [get_bot_reply, if_neg hne, hyes, hno]
    simp only [Bool.false_eq_true, if_false]
    unfold FAQ_BANK faqLookup
    rw [if_pos (by simp [hroi])]
  · intro userMessage
    match userMessage with
    | none => decide
    | some msg =>
      by_cases hne : msg = []
      · rw [hne]
        simp [get_bot_reply]
        decide
      · simp only [get_bot_reply, if_neg hne]
        split
        · decide
        · split
          · decide
          · exact faqLookup_ne_nil _

/-- Witness for C10: the "yes" branch takes priority over "no" and the
FAQ bank on a message containing all triggers, and the other branches
fire on concrete inputs. -/
theorem c10_get_bot_reply_witness :
    get_bot_reply (some "Yes, no, interest rate?".data) = yesReply ∧
    get_bot_reply (some "No thanks".data) = noReply ∧
    get_bot_reply (some "what is the interest rate".data) =
      "The interest rate is personalized. Check the loan summary in the Rupeek app.".data ∧
    get_bot_reply (some "hmm".data) ≠ [] :=
  ⟨c10_get_bot_reply_spec.2.2.1 "Yes, no, interest rate?".data (by decide),
   c10_get_bot_reply_spec.2.2.2.1 "No thanks".data (by decide) (by decide),
   c10_get_bot_reply_spec.2.2.2.2.1 "what is the interest rate".data (by decide) (by decide)
     (by decide) (by decide),
   c10_get_bot_reply_spec.2.2.2.2.2 (some "hmm".data)⟩

/-! ## C5: WAV container round trip -/

/-- Stepping `findChunks` over the 24-byte `fmt ` chunk the writer
emits (PCM tag 1, mono, 16-bit): it records frame size 2 and continues
with the remaining buffer. -/
theorem findChunks_fmt_step (fuel : Nat) (fs : Option Nat) (r0 r1 r2 r3 w0 w1 w2 w3 : Nat)
    (rest : List Nat) :
    findChunks (fuel + 1) fs
      (102 :: 109 :: 116 :: 32 :: 16 :: 0 :: 0 :: 0 :: 1 :: 0 :: 1 :: 0 ::
        r0 :: r1 :: r2 :: r3 :: w0 :: w1 :: w2 :: w3 :: 2 :: 0 :: 16 :: 0 :: rest) =
      findChunks fuel (some 2) rest := by
  simp [findChunks, parseFmtChunk, u32dec, u16dec, dataMagic, fmtMagic]

/-- Stepping `findChunks` over a `data` chunk header: return
`nframes * framesize` bytes of the remaining buffer. -/
theorem findChunks_data_step (fuel fr : Nat) (b0 b1 b2 b3 : Nat) (rest : List Nat)
    (hfr : fr ≠ 0) :
    findChunks (fuel + 1) (some fr) (100 :: 97 :: 116 :: 97 :: b0 :: b1 :: b2 :: b3 :: rest) =
      some ((rest.take (u32dec [b0, b1, b2, b3])).take (u32dec [b0, b1, b2, b3] / fr * fr)) := by
  simp [findChunks, dataMagic, hfr]

/-- The writer's output buffer, written as an explicit byte list. -/
theorem wavHeader_cons (n rate : Nat) (pcm : List Nat) :
    wavHeader n rate ++ pcm =
      82 :: 73 :: 70 :: 70 ::
      (36 + n) % 256 :: (36 + n) / 256 % 256 :: (36 + n) / 65536 % 256 :: (36 + n) / 16777216 % 256 ::
      87 :: 65 :: 86 :: 69 ::
      102 :: 109 :: 116 :: 32 :: 16 :: 0 :: 0 :: 0 :: 1 :: 0 :: 1 :: 0 ::
      rate % 256 :: rate / 256 % 256 :: rate / 65536 % 256 :: rate / 16777216 % 256 ::
      2 * rate % 256 :: 2 * rate / 256 % 256 :: 2 * rate / 65536 % 256 :: 2 * rate / 16777216 % 256 ::
      2 :: 0 :: 16 :: 0 ::
      100 :: 97 :: 116 :: 97 ::
      n % 256 :: n / 256 % 256 :: n / 65536 % 256 :: n / 16777216 % 256 :: pcm := by
  simp [wavHeader, riffMagic, waveMagic, fmtMagic, dataMagic, u32leBytes, u16leBytes]

/-- Reading back a buffer the writer produced yields exactly the frame
bytes, provided the byte count is even (16-bit frames). -/
theorem strip_of_wavHeader (n rate : Nat) (pcm : List Nat) (h32 : n < 4294967296)
    (hn : n = pcm.length) (heven : pcm.length % 2 = 0) :
    strip_wav_header_and_return_pcm (wavHeader n rate ++ pcm) = some pcm := by
  rw [wavHeader_cons]
  rw [strip_wav_header_and_return_pcm]
  rw [if_pos (by constructor <;> simp [riffMagic, waveMagic])]
  have hdec : u32dec [n % 256, n / 256 % 256, n / 65536 % 256, n / 16777216 % 256] = n := by
    simp [u32dec]; omega
  have hlen : ∀ t : List Nat, (82 :: 73 :: 70 :: 70 ::
      (36 + n) % 256 :: (36 + n) / 256 % 256 :: (36 + n) / 65536 % 256 :: (36 + n) / 16777216 % 256 ::
      87 :: 65 :: 86 :: 69 :: t).length = t.length + 12 := by
    intro t; simp
  simp only [List.drop_succ_cons, List.drop_zero, hlen]
  rw [show ∀ m : Nat, m + 12 = (m + 11) + 1 from fun m => rfl]
  rw [findChunks_fmt_step]
  have hlen2 : (102 :: 109 :: 116 :: 32 :: 16 :: 0 :: 0 :: 0 :: 1 :: 0 :: 1 :: 0 ::
      rate % 256 :: rate / 256 % 256 :: rate / 65536 % 256 :: rate / 16777216 % 256 ::
      2 * rate % 256 :: 2 * rate / 256 % 256 :: 2 * rate / 65536 % 256 :: 2 * rate / 16777216 % 256 ::
      2 :: 0 :: 16 :: 0 ::
      100 :: 97 :: 116 :: 97 ::
      n % 256 :: n / 256 % 256 :: n / 65536 % 256 :: n / 16777216 % 256 :: pcm).length + 11 =
      (pcm.length + 42) + 1 := by simp
  rw [hlen2, findChunks_data_step _ _ _ _ _ _ _ (by omega), hdec]
  rw [hn, List.take_length]
  rw [show pcm.length / 2 * 2 = pcm.length by omega, List.take_length]

/-- C5: for every PCM16 byte sequence (an even number of bytes — a whole
number of 16-bit samples) and every admissible sample rate, stripping
the WAV header from the wrapped buffer returns exactly the original
bytes: `pcmFromWav (wavWrap pcm rate) = pcm`.  (`wavWrap` is
`wav_bytes_from_linear16`, `pcmFromWav` is
`strip_wav_header_and_return_pcm`; the rate/size bounds are exactly the
conditions under which the Python writer does not raise.) -/
theorem c5_wav_round_trip (pcm : List Nat) (rate : Nat)
    (heven : pcm.length % 2 = 0) (hrate : 0 < rate) (hrate32 : 2 * rate < 4294967296)
    (hsize : 36 + pcm.length < 4294967296) :
    (wav_bytes_from_linear16 pcm rate).bind strip_wav_header_and_return_pcm = some pcm := by
  unfold wav_bytes_from_linear16
  rw [if_pos ⟨hrate, hrate32, hsize⟩]
  rw [Option.some_bind]
  exact strip_of_wavHeader pcm.length rate pcm (by omega) rfl heven

/-- Witness for C5: a concrete 2-byte PCM buffer at 8000 Hz round-trips
through the container. -/
theorem c5_wav_round_trip_witness :
    (wav_bytes_from_linear16 [1, 2] 8000).bind strip_wav_header_and_return_pcm = some [1, 2] :=
  c5_wav_round_trip [1, 2] 8000 (by decide) (by decide) (by decide) (by decide)

/-! ## C8: μ-law round trip determinism -/

set_option maxRecDepth 10000 in
/-- μ-law expand-then-compress is the identity on every compressed byte
except 0x7F ("negative zero", which decodes to 0 and re-encodes as
0xFF) — checked exhaustively over all 256 byte values. -/
theorem ulaw_byte_roundtrip : ∀ u ∈ List.range 256, u ≠ 127 →
    ulawEncodeSample (ulawDecodeByte u) = u := by decide

set_option maxRecDepth 10000 in
/-- Every μ-law byte decodes into the signed 16-bit range. -/
theorem ulawDecodeByte_range : ∀ u ∈ List.range 256,
    -32768 ≤ ulawDecodeByte u ∧ ulawDecodeByte u < 32768 := by decide

set_option maxRecDepth 10000 in
/-- XOR with an all-ones mask is subtraction below the mask. -/
theorem xor_sub_helper : ∀ u ∈ List.range 128,
    u ^^^ 255 = 255 - u ∧ u ^^^ 127 = 127 - u := by decide

/-- Specialization of `xor_sub_helper` to the positive-sign mask. -/
theorem xor255_of_lt (u : Nat) (h : u < 128) : u ^^^ 255 = 255 - u :=
  (xor_sub_helper u (List.mem_range.mpr h)).1

/-- Specialization of `xor_sub_helper` to the negative-sign mask. -/
theorem xor127_of_lt (u : Nat) (h : u < 128) : u ^^^ 127 = 127 - u :=
  (xor_sub_helper u (List.mem_range.mpr h)).2

/-- The compressor always produces a byte, and never the byte 0x7F
(a negative magnitude is at least 1, so the mantissa/segment pair of a
negative sample is never zero). -/
theorem ulawEncodeSample_bounds (s : Int) :
    ulawEncodeSample s < 256 ∧ ulawEncodeSample s ≠ 127 := by
  unfold ulawEncodeSample
  by_cases hp : Int.fdiv s 4 < 0
  · simp only [hp, if_true]
    have hmag : 1 ≤ min (-Int.fdiv s 4).toNat 8159 := by omega
    set v := min (-Int.fdiv s 4).toNat 8159 + 33 with hv
    have hv1 : 34 ≤ v := by omega
    by_cases h8 : 8191 < v
    · simp only [h8, if_true]
      decide
    · simp only [h8, if_false]
      have hvle : v ≤ 8191 := by omega
      split_ifs with h1 h2 h3 h4 h5 h6 h7
      all_goals {
        rw [xor127_of_lt _ (by omega)]
        omega
      }
  · simp only [hp, if_false]
    by_cases h8 : 8191 < min (Int.fdiv s 4).toNat 8159 + 33
    · simp only [h8, if_true]
      decide
    · simp only [h8, if_false]
      split_ifs with h1 h2 h3 h4 h5 h6 h7
      all_goals {
        rw [xor255_of_lt _ (by omega)]
        omega
      }

/-- Compress–expand–compress agrees with compress on every sample. -/
theorem enc_dec_enc (s : Int) :
    ulawEncodeSample (ulawDecodeByte (ulawEncodeSample s)) = ulawEncodeSample s :=
  ulaw_byte_roundtrip (ulawEncodeSample s)
    (List.mem_range.mpr (ulawEncodeSample_bounds s).1) (ulawEncodeSample_bounds s).2

/-- Splitting the two little-endian bytes of an in-range sample back
off the front of a byte stream recovers the sample. -/
theorem bytesToInt16_int16ToBytes (v : Int) (h1 : -32768 ≤ v) (h2 : v < 32768)
    (rest : List Nat) :
    bytesToInt16 (int16ToBytes v ++ rest) = v :: bytesToInt16 rest := by
  simp only [int16ToBytes, List.cons_append, List.nil_append, bytesToInt16, List.cons.injEq]
  refine ⟨?_, rfl⟩
  have hw : (v % 65536).toNat % 256 + 256 * ((v % 65536).toNat / 256) = (v % 65536).toNat := by
    omega
  rw [hw]
  split <;> omega

/-- Re-reading the expansion of a compressed sample list gives exactly
the per-sample expansions, and the expansion has even length. -/
theorem reencode_chain (l : List Int) :
    bytesToInt16 (pcm16FromMulaw (l.map ulawEncodeSample)) =
      l.map (fun s => ulawDecodeByte (ulawEncodeSample s)) ∧
    (pcm16FromMulaw (l.map ulawEncodeSample)).length % 2 = 0 := by
  induction l with
  | nil => simp [pcm16FromMulaw, bytesToInt16]
  | cons s l ih =>
    have hrange := ulawDecodeByte_range (ulawEncodeSample s)
      (List.mem_range.mpr (ulawEncodeSample_bounds s).1)
    have hstep : pcm16FromMulaw ((s :: l).map ulawEncodeSample) =
        int16ToBytes (ulawDecodeByte (ulawEncodeSample s)) ++
          pcm16FromMulaw (l.map ulawEncodeSample) := by
      simp [pcm16FromMulaw]
    constructor
    · rw [hstep, bytesToInt16_int16ToBytes _ hrange.1 hrange.2, ih.1]
      simp
    · rw [hstep]
      simp only [List.length_append, int16ToBytes, List.length_cons, List.length_nil]
      omega

/-- C8 (spec-modelled: the source only imports `audioop`; the codec
follows §4.2's "standard 8-bit μ-law" as implemented by CPython).  The
μ-law round trip is lossy but deterministic: whenever `mulawFromPcm16`
compresses a PCM16 byte sequence `p` to `c`, re-compressing the
expansion of `c` yields exactly `c` again — so any number of
expand/re-compress cycles from the same compressed form produces
identical bytes — while some `p` (witness `[1, 0]`, the sample 1) is
not recovered exactly by `pcm16FromMulaw ∘ mulawFromPcm16`. -/
theorem c8_mulaw_roundtrip_deterministic :
    (∀ p c, mulawFromPcm16 p = some c →
      mulawFromPcm16 (pcm16FromMulaw c) = some c) ∧
    (∃ q, q.length % 2 = 0 ∧ (mulawFromPcm16 q).map pcm16FromMulaw ≠ some q) := by
  constructor
  · intro p c hp
    unfold mulawFromPcm16 at hp
    by_cases hev : p.length % 2 = 0
    · rw [if_pos hev] at hp
      have hc : c = (bytesToInt16 p).map ulawEncodeSample := by
        exact (Option.some.injEq _ _).mp hp.symm
      subst hc
      have hchain := reencode_chain (bytesToInt16 p)
      unfold mulawFromPcm16
      rw [if_pos hchain.2, hchain.1]
      rw [List.map_map]
      exact congrArg some (List.map_congr_left (fun s _ => enc_dec_enc s))
    · rw [if_neg hev] at hp
      exact absurd hp (by simp)
  · exact ⟨[1, 0], by decide, by decide⟩

/-- Witness for C8: the concrete buffer `[1, 0]` (sample value 1)
compresses to the byte 0xFF; expanding and re-compressing returns
exactly 0xFF again. -/
theorem c8_mulaw_roundtrip_witness :
    mulawFromPcm16 (pcm16FromMulaw [255]) = some [255] :=
  c8_mulaw_roundtrip_deterministic.1 [1, 0] [255] (by decide)

/-! ## Frame chunking and emission lemmas -/

/-- Every frame the chunking loop emits is exactly 1600 bytes. -/
theorem chunkFramesGo_length : ∀ fuel pcm f, f ∈ chunkFramesGo fuel pcm → f.length = 1600 := by
  intro fuel
  induction fuel with
  | zero => intro pcm f h; simp [chunkFramesGo] at h
  | succ fuel ih =>
    intro pcm f h
    by_cases hp : pcm = []
    · simp [chunkFramesGo, hp] at h
    · rw [chunkFramesGo, if_neg hp] at h
      rcases List.mem_cons.mp h with h1 | h2
      · subst h1
        split_ifs with hlt
        · simp
        · have : (pcm.take 1600).length = min 1600 pcm.length := by simp
          omega
      · exact ih _ _ h2

/-- Every frame of `chunkFrames` is exactly 1600 bytes. -/
theorem chunkFrames_length (pcm : List Nat) (f : List Nat) (h : f ∈ chunkFrames pcm) :
    f.length = 1600 :=
  chunkFramesGo_length pcm.length pcm f h

/-- `chunkFramesGo` on the empty buffer emits nothing, any fuel. -/
theorem chunkFramesGo_nil (fuel : Nat) : chunkFramesGo fuel [] = [] := by
  cases fuel <;> simp [chunkFramesGo]

/-- The concatenation of the emitted frames is the input followed by
the zero padding of the final short fragment. -/
theorem chunkFramesGo_flatten : ∀ fuel pcm, pcm.length ≤ fuel →
    (chunkFramesGo fuel pcm).flatten =
      pcm ++ List.replicate ((1600 - pcm.length % 1600) % 1600) 0 := by
  intro fuel
  induction fuel with
  | zero =>
    intro pcm h
    have : pcm = [] := List.length_eq_zero.mp (by omega)
    subst this
    simp [chunkFramesGo]
  | succ fuel ih =>
    intro pcm h
    by_cases hp : pcm = []
    · subst hp
      simp [chunkFramesGo]
    · rw [chunkFramesGo, if_neg hp]
      have hpos : 0 < pcm.length := List.length_pos.mpr hp
      have htk : (pcm.take 1600).length = min 1600 pcm.length := by simp
      by_cases hle : pcm.length ≤ 1600
      · have hdrop : pcm.drop 1600 = [] := List.drop_of_length_le hle
        have htake : pcm.take 1600 = pcm := List.take_of_length_le hle
        rw [hdrop, chunkFramesGo_nil, htake]
        by_cases hlt : pcm.length < 1600
        · rw [if_pos hlt]
          simp only [List.flatten_cons, List.flatten_nil, List.append_nil]
          have heq : 1600 - pcm.length = (1600 - pcm.length % 1600) % 1600 := by omega
          rw [heq]
        · rw [if_neg hlt]
          simp only [List.flatten_cons, List.flatten_nil, List.append_nil]
          have heq : (1600 - pcm.length % 1600) % 1600 = 0 := by omega
          rw [heq]
          simp
      · have hlen : (pcm.drop 1600).length = pcm.length - 1600 := by simp
        rw [if_neg (by omega)]
        simp only [List.flatten_cons]
        rw [ih (pcm.drop 1600) (by omega)]
        rw [← List.append_assoc, List.take_append_drop]
        congr 2
        omega

/-- The flattened output of `chunkFrames` is the input plus final
zero padding. -/
theorem chunkFrames_flatten (pcm : List Nat) :
    (chunkFrames pcm).flatten =
      pcm ++ List.replicate ((1600 - pcm.length % 1600) % 1600) 0 :=
  chunkFramesGo_flatten pcm.length pcm (Nat.le_refl _)

/-- Full characterization of `emitFrames`: final counters advance by the
frame count, sequence numbers and chunk indexes are the consecutive
ranges starting at the initial counters, and every payload is one of
the frames. -/
theorem emitFrames_spec (sid : List Char) :
    ∀ (frames : List (List Nat)) (sq ck : Nat),
    (emitFrames sid sq ck frames).1 = sq + frames.length ∧
    (emitFrames sid sq ck frames).2.1 = ck + frames.length ∧
    ((emitFrames sid sq ck frames).2.2).map seqOfEvent = List.range' sq frames.length ∧
    ((emitFrames sid sq ck frames).2.2).filterMap chunkOfEvent = List.range' ck frames.length ∧
    ∀ ev ∈ (emitFrames sid sq ck frames).2.2, ∀ pl, payloadOfEvent ev = some pl → pl ∈ frames := by
  intro frames
  induction frames with
  | nil => intro sq ck; simp [emitFrames]
  | cons f fs ih =>
    intro sq ck
    have ihs := ih (sq + 1) (ck + 1)
    refine ⟨?_, ?_, ?_, ?_, ?_⟩
    · simp only [emitFrames, ihs.1]
      simp; omega
    · simp only [emitFrames, ihs.2.1]
      simp; omega
    · simp only [emitFrames, List.map_cons, seqOfEvent, ihs.2.2.1, List.length_cons,
        List.range'_succ]
    · simp only [emitFrames, List.filterMap_cons, chunkOfEvent, ihs.2.2.2.1, List.length_cons,
        List.range'_succ]
    · intro ev hev pl hpl
      simp only [emitFrames, List.mem_cons] at hev
      rcases hev with h1 | h2
      · subst h1
        simp only [payloadOfEvent, Option.some.injEq] at hpl
        subst hpl
        exact List.mem_cons_self f fs
      · exact List.mem_cons_of_mem f (ihs.2.2.2.2 ev h2 pl hpl)

/-! ## Session step invariants -/

/-- Wire-wrapping then filtering is the identity. -/
theorem wireEvts_map_wire (evs : List WireEvent) : wireEvts (evs.map .wire) = evs := by
  induction evs with
  | nil => rfl
  | cons e es ih => simp [wireEvts, List.filterMap_cons] at ih ⊢; exact ih

/-- `forwardToStt` emits no wire events and leaves the counters and the
transcript queue untouched. -/
theorem forwardToStt_plain (env : Env) (s : SessionState) (pcm : List Nat) :
    wireEvts (forwardToStt env s pcm).2 = [] ∧
    (forwardToStt env s pcm).1.seq = s.seq ∧
    (forwardToStt env s pcm).1.chunk = s.chunk ∧
    (forwardToStt env s pcm).1.transcriptsQ = s.transcriptsQ := by
  unfold forwardToStt
  split_ifs <;> simp [wireEvts]

/-- `handleEvent` emits no wire events and leaves the counters and the
transcript queue untouched. -/
theorem handleEvent_plain (env : Env) (s : SessionState) (e : ExotelEvent) :
    wireEvts (handleEvent env s e).2 = [] ∧
    (handleEvent env s e).1.seq = s.seq ∧
    (handleEvent env s e).1.chunk = s.chunk ∧
    (handleEvent env s e).1.transcriptsQ = s.transcriptsQ := by
  cases e with
  | connected => simp [handleEvent, wireEvts]
  | start sid srField =>
    unfold handleEvent
    rcases srField with _ | ⟨_ | n⟩ <;>
      (dsimp only; split_ifs <;> simp [wireEvts])
  | media payload chunkField =>
    unfold handleEvent
    rcases hm : mediaPayloadField payload chunkField with _ | ⟨pl⟩ | ⟨c⟩
    · simp only [hm]
      simp [wireEvts]
    · simp only [hm]
      rcases hb : env.b64 pl with _ | raw
      · simp only [hb]
        simp [wireEvts]
      · simp only [hb]
        split_ifs with hw
        · rcases hs : strip_wav_header_and_return_pcm raw with _ | pcm
          · simp only [hs]
            simp [wireEvts]
          · simp only [hs]
            exact forwardToStt_plain env s pcm
        · exact forwardToStt_plain env s raw
    · simp only [hm]
      simp [wireEvts]
  | markEv name => simp [handleEvent, wireEvts]
  | stop => simp [handleEvent, wireEvts]
  | unknown => simp [handleEvent, wireEvts]

/-- `handleTts` advances `sequence_number` by exactly the number of wire
events it emits and `chunk_index` by exactly the number of media events;
the emitted sequence numbers and chunk indexes are the consecutive
ranges starting at the current counters; every media payload is exactly
1600 bytes; the transcript queue is untouched. -/
theorem handleTts_wire_spec (env : Env) (s : SessionState) (m : TtsMsg) :
    (handleTts env s m).1.seq = s.seq + (wireEvts (handleTts env s m).2).length ∧
    (wireEvts (handleTts env s m).2).map seqOfEvent =
      List.range' s.seq (wireEvts (handleTts env s m).2).length ∧
    (handleTts env s m).1.chunk =
      s.chunk + ((wireEvts (handleTts env s m).2).filterMap chunkOfEvent).length ∧
    (wireEvts (handleTts env s m).2).filterMap chunkOfEvent =
      List.range' s.chunk ((wireEvts (handleTts env s m).2).filterMap chunkOfEvent).length ∧
    ((handleTts env s m).1.transcriptsQ = s.transcriptsQ) ∧
    ∀ ev ∈ wireEvts (handleTts env s m).2, ∀ pl, payloadOfEvent ev = some pl →
      pl.length = 1600 := by
  by_cases hg : s.greetingActive = false
  · simp [handleTts, hg, wireEvts]
  · cases m with
    | audio payload =>
      rcases payload with _ | b64payload
      · simp [handleTts, hg, wireEvts]
      · unfold handleTts
        rw [if_neg hg]
        rcases hb : env.b64 b64payload with _ | raw
        · simp only [hb]
          simp [wireEvts]
        · simp only [hb]
          rcases hs : (if is_wav raw then strip_wav_header_and_return_pcm raw else some raw)
            with _ | pcm
          · simp only [hs]
            simp [wireEvts]
          · simp only [hs]
            have hspec := emitFrames_spec (s.streamSid.getD []) (chunkFrames pcm) s.seq s.chunk
            rw [wireEvts_map_wire]
            have hlen : ((emitFrames (s.streamSid.getD []) s.seq s.chunk
                (chunkFrames pcm)).2.2).length = (chunkFrames pcm).length := by
              have := congrArg List.length hspec.2.2.1
              simpa using this
            refine ⟨?_, ?_, ?_, ?_, by trivial, ?_⟩
            · rw [hlen]; exact hspec.1
            · rw [hlen]; exact hspec.2.2.1
            · have hclen : (((emitFrames (s.streamSid.getD []) s.seq s.chunk
                  (chunkFrames pcm)).2.2).filterMap chunkOfEvent).length =
                  (chunkFrames pcm).length := by
                have := congrArg List.length hspec.2.2.2.1
                simpa using this
              rw [hclen]; exact hspec.2.1
            · have hclen : (((emitFrames (s.streamSid.getD []) s.seq s.chunk
                  (chunkFrames pcm)).2.2).filterMap chunkOfEvent).length =
                  (chunkFrames pcm).length := by
                have := congrArg List.length hspec.2.2.2.1
                simpa using this
              rw [hclen]; exact hspec.2.2.2.1
            · intro ev hev pl hpl
              exact chunkFrames_length pcm pl (hspec.2.2.2.2 ev hev pl hpl)
    | eventMsg et =>
      unfold handleTts
      rw [if_neg hg]
      dsimp only
      split_ifs with hfin
      · simp [wireEvts, List.filterMap_cons, seqOfEvent, chunkOfEvent, payloadOfEvent,
          List.range'_one]
      · simp [wireEvts]
    | errorMsg =>
      unfold handleTts
      rw [if_neg hg]
      simp [wireEvts, List.filterMap_cons, seqOfEvent, chunkOfEvent, payloadOfEvent,
        List.range'_one]
    | otherText => simp [handleTts, hg, wireEvts]
    | nonText => simp [handleTts, hg, wireEvts]

/-- The receiver loop only appends to the transcript queue. -/
theorem sttReceiverStep_queue (st : List Char × List (List Char)) (m : SttMsg) :
    ∃ t, (sttReceiverStep st m).2 = st.2 ++ t := by
  obtain ⟨buf, out⟩ := st
  cases m with
  | dataMsg tx =>
    dsimp only [sttReceiverStep]
    split_ifs <;> exact ⟨[], by simp⟩
  | eventsMsg sig =>
    dsimp only [sttReceiverStep]
    split_ifs
    · exact ⟨[], by simp⟩
    · exact ⟨[buf], rfl⟩
    · exact ⟨[], by simp⟩
  | otherMsg => exact ⟨[], by simp [sttReceiverStep]⟩

/-- Master step invariant: one session step advances `sequence_number`
by exactly the number of wire events emitted, those events carry the
consecutive sequence numbers starting at the current counter, media
events carry the consecutive chunk indexes starting at the current
chunk counter, every media payload is exactly 1600 bytes, and the
transcript queue only grows (by at most the promoted final
transcript). -/
theorem sessionStep_spec (env : Env) (s : SessionState) (i : SessionInput) :
    (sessionStep env s i).1.seq = s.seq + (wireEvts (sessionStep env s i).2).length ∧
    (wireEvts (sessionStep env s i).2).map seqOfEvent =
      List.range' s.seq (wireEvts (sessionStep env s i).2).length ∧
    (sessionStep env s i).1.chunk =
      s.chunk + ((wireEvts (sessionStep env s i).2).filterMap chunkOfEvent).length ∧
    (wireEvts (sessionStep env s i).2).filterMap chunkOfEvent =
      List.range' s.chunk ((wireEvts (sessionStep env s i).2).filterMap chunkOfEvent).length ∧
    (∃ t, (sessionStep env s i).1.transcriptsQ = s.transcriptsQ ++ t) ∧
    ∀ ev ∈ wireEvts (sessionStep env s i).2, ∀ pl, payloadOfEvent ev = some pl →
      pl.length = 1600 := by
  by_cases hc : s.closed
  · simp [sessionStep, hc, wireEvts]
  · cases i with
    | fromExotel m =>
      cases m with
      | malformedText => simp [sessionStep, hc, wireEvts]
      | nonObjectText => simp [sessionStep, hc, wireEvts]
      | disconnect => simp [sessionStep, hc, wireEvts]
      | evt e =>
        have h := handleEvent_plain env s e
        simp only [sessionStep, hc, Bool.false_eq_true, if_false]
        rw [h.1]
        exact ⟨by simp [h.2.1], by simp, by simp [h.2.2.1], by simp,
          ⟨[], by simp [h.2.2.2]⟩, by simp⟩
      | binary raw =>
        simp only [sessionStep, hc, Bool.false_eq_true, if_false]
        split_ifs with hw
        · rcases hs : strip_wav_header_and_return_pcm raw with _ | pcm
          · simp only [hs]
            simp [wireEvts]
          · simp only [hs]
            have h := forwardToStt_plain env s pcm
            rw [h.1]
            exact ⟨by simp [h.2.1], by simp, by simp [h.2.2.1], by simp,
              ⟨[], by simp [h.2.2.2]⟩, by simp⟩
        · have h := forwardToStt_plain env s raw
          rw [h.1]
          exact ⟨by simp [h.2.1], by simp, by simp [h.2.2.1], by simp,
            ⟨[], by simp [h.2.2.2]⟩, by simp⟩
    | fromStt m =>
      simp only [sessionStep, hc, Bool.false_eq_true, if_false]
      refine ⟨by simp [wireEvts], by simp [wireEvts], by simp [wireEvts], by simp [wireEvts],
        ?_, by simp [wireEvts]⟩
      obtain ⟨t, ht⟩ := sttReceiverStep_queue (s.bufferedTx, s.transcriptsQ) m
      exact ⟨t, ht⟩
    | fromTts m =>
      have h := handleTts_wire_spec env s m
      simp only [sessionStep, hc, Bool.false_eq_true, if_false]
      exact ⟨h.1, h.2.1, h.2.2.1, h.2.2.2.1, ⟨[], by simp [h.2.2.2.2.1]⟩, h.2.2.2.2.2⟩

/-- `wireEvts` distributes over action concatenation. -/
theorem wireEvts_append (a b : List BridgeAction) :
    wireEvts (a ++ b) = wireEvts a ++ wireEvts b := by
  simp [wireEvts]

/-- Master run invariant: over any whole session execution the wire
events carry consecutive sequence numbers starting at the initial
counter, media events carry consecutive chunk indexes starting at the
initial chunk counter, every media payload is exactly 1600 bytes, and
the transcript queue only ever grows. -/
theorem sessionRun_spec (env : Env) (inputs : List SessionInput) : ∀ s : SessionState,
    (sessionRun env s inputs).1.seq = s.seq + (wireEvts (sessionRun env s inputs).2).length ∧
    (wireEvts (sessionRun env s inputs).2).map seqOfEvent =
      List.range' s.seq (wireEvts (sessionRun env s inputs).2).length ∧
    (sessionRun env s inputs).1.chunk =
      s.chunk + ((wireEvts (sessionRun env s inputs).2).filterMap chunkOfEvent).length ∧
    (wireEvts (sessionRun env s inputs).2).filterMap chunkOfEvent =
      List.range' s.chunk ((wireEvts (sessionRun env s inputs).2).filterMap chunkOfEvent).length ∧
    (∃ t, (sessionRun env s inputs).1.transcriptsQ = s.transcriptsQ ++ t) ∧
    ∀ ev ∈ wireEvts (sessionRun env s inputs).2, ∀ pl, payloadOfEvent ev = some pl →
      pl.length = 1600 := by
  induction inputs with
  | nil =>
    intro s
    simp [sessionRun, wireEvts]
  | cons i is ih =>
    intro s
    have hstep := sessionStep_spec env s i
    have hrest := ih (sessionStep env s i).1
    have hunf1 : (sessionRun env s (i :: is)).1 =
        (sessionRun env (sessionStep env s i).1 is).1 := rfl
    have hunf2 : (sessionRun env s (i :: is)).2 =
        (sessionStep env s i).2 ++ (sessionRun env (sessionStep env s i).1 is).2 := rfl
    rw [hunf1, hunf2, wireEvts_append]
    refine ⟨?_, ?_, ?_, ?_, ?_, ?_⟩
    · rw [hrest.1, hstep.1, List.length_append]
      omega
    · rw [List.map_append, hstep.2.1, hrest.2.1, hstep.1, List.length_append]
      rw [List.range'_append_1]
      congr 1
      omega
    · rw [hrest.2.2.1, hstep.2.2.1, List.filterMap_append, List.length_append]
      omega
    · rw [List.filterMap_append, List.length_append]
      have hb := hrest.2.2.2.1
      rw [hstep.2.2.1] at hb
      rw [hstep.2.2.2.1, hb]
      simp
      omega
    · obtain ⟨t1, ht1⟩ := hstep.2.2.2.2.1
      obtain ⟨t2, ht2⟩ := hrest.2.2.2.2.1
      exact ⟨t1 ++ t2, by rw [ht2, ht1, List.append_assoc]⟩
    · intro ev hev pl hpl
      rcases List.mem_append.mp hev with h1 | h2
      · exact hstep.2.2.2.2.2 ev h1 pl hpl
      · exact hrest.2.2.2.2.2 ev h2 pl hpl

/-! ## C2: sequence numbers and chunk indexes -/

/-- C2: over every session execution, the `sequence_number` values on
the outbound wire events (media and mark) are strictly increasing
(`Pairwise (· < ·)` over the emission order), the first emitted event
carries the fixed initial value 1, and the `chunk` indexes on media
events are strictly increasing as well — hence never decreasing and
unique within the session. -/
theorem c2_sequence_numbers (env : Env) (inputs : List SessionInput) :
    ((sessionWire env inputs).map seqOfEvent).Pairwise (· < ·) ∧
    (sessionWire env inputs ≠ [] →
      ((sessionWire env inputs).map seqOfEvent).head? = some 1) ∧
    ((sessionWire env inputs).filterMap chunkOfEvent).Pairwise (· < ·) := by
  have h := sessionRun_spec env inputs initialState
  have hw : sessionWire env inputs = wireEvts (sessionRun env initialState inputs).2 := rfl
  refine ⟨?_, ?_, ?_⟩
  · rw [hw, h.2.1]
    exact List.pairwise_lt_range' _ _
  · intro hne
    rw [hw, h.2.1, List.head?_range']
    rw [if_neg (by rw [List.length_eq_zero]; rw [hw] at hne; exact hne)]
    rfl
  · rw [hw, h.2.2.2.1]
    exact List.pairwise_lt_range' _ _

/-- Witness for C2: the demo session (greeting with an empty audio turn)
emits exactly one wire event, whose sequence number is the initial
value 1. -/
theorem c2_sequence_numbers_witness :
    ((sessionWire demoEnv demoMarkInputs).map seqOfEvent).head? = some 1 :=
  (c2_sequence_numbers demoEnv demoMarkInputs).2.1 (by decide)

/-! ## C3: outbound frame size and padding -/

/-- C3: every frame produced by the outbound re-chunking is exactly the
configured `frame_bytes = 1600` bytes; the concatenation of the frames
is the source PCM followed by the zero padding of the final short
fragment (so a short remainder is right-padded with zero bytes, never
emitted short); and every media wire event any session emits carries a
decoded payload of exactly 1600 bytes. -/
theorem c3_frame_size :
    (∀ pcm f, f ∈ chunkFrames pcm → f.length = 1600) ∧
    (∀ pcm, (chunkFrames pcm).flatten =
      pcm ++ List.replicate ((1600 - pcm.length % 1600) % 1600) 0) ∧
    (∀ env inputs ev, ev ∈ sessionWire env inputs → ∀ pl, payloadOfEvent ev = some pl →
      pl.length = 1600) :=
  ⟨chunkFrames_length, chunkFrames_flatten,
   fun env inputs ev hev pl hpl =>
     (sessionRun_spec env inputs initialState).2.2.2.2.2 ev hev pl hpl⟩

set_option maxRecDepth 100000 in
set_option maxHeartbeats 1000000 in
/-- Witness for C3: chunking a 2-byte PCM buffer yields the single
frame `[7, 7]` padded with 1598 zero bytes, of length exactly 1600. -/
theorem c3_frame_size_witness :
    (([7, 7] : List Nat) ++ List.replicate 1598 0).length = 1600 :=
  c3_frame_size.1 [7, 7] ([7, 7] ++ List.replicate 1598 0) (by decide)

/-! ## C1: enqueued transcripts are never consumed -/

/-- `forwardToStt` never sends text to the TTS upstream. -/
theorem forwardToStt_ttsText (env : Env) (s : SessionState) (pcm : List Nat) :
    ∀ a ∈ (forwardToStt env s pcm).2, ∀ txt, a = BridgeAction.ttsText txt →
      txt = greetingText := by
  unfold forwardToStt
  split_ifs <;> (intro a ha txt heq; subst heq; simp at ha)

/-- The only text the main event dispatcher ever sends to the TTS
upstream is the fixed greeting (from the `start` branch). -/
theorem handleEvent_ttsText (env : Env) (s : SessionState) (e : ExotelEvent) :
    ∀ a ∈ (handleEvent env s e).2, ∀ txt, a = BridgeAction.ttsText txt →
      txt = greetingText := by
  cases e with
  | connected => intro a ha txt heq; subst heq; simp [handleEvent] at ha
  | start sid srField =>
    unfold handleEvent
    rcases srField with _ | ⟨_ | n⟩ <;>
      (dsimp only; split_ifs <;> (intro a ha txt heq; subst heq; simp at ha <;> try exact ha))
  | media payload chunkField =>
    unfold handleEvent
    rcases hm : mediaPayloadField payload chunkField with _ | ⟨pl⟩ | ⟨c⟩
    · simp only [hm]
      intro a ha txt heq; subst heq; simp at ha
    · simp only [hm]
      rcases hb : env.b64 pl with _ | raw
      · simp only [hb]
        intro a ha txt heq; subst heq; simp at ha
      · simp only [hb]
        split_ifs with hw
        · rcases hs : strip_wav_header_and_return_pcm raw with _ | pcm
          · simp only [hs]
            intro a ha txt heq; subst heq; simp at ha
          · simp only [hs]
            exact forwardToStt_ttsText env s pcm
        · exact forwardToStt_ttsText env s raw
    · simp only [hm]
      intro a ha txt heq; subst heq; simp at ha
  | markEv name => intro a ha txt heq; subst heq; simp [handleEvent] at ha
  | stop => intro a ha txt heq; subst heq; simp [handleEvent] at ha
  | unknown => intro a ha txt heq; subst heq; simp [handleEvent] at ha

/-- The greeting-playback loop never sends text to the TTS upstream
(it only reads from it and writes wire events). -/
theorem handleTts_ttsText (env : Env) (s : SessionState) (m : TtsMsg) :
    ∀ a ∈ (handleTts env s m).2, ∀ txt, a = BridgeAction.ttsText txt →
      txt = greetingText := by
  by_cases hg : s.greetingActive = false
  · intro a ha txt heq; subst heq; simp [handleTts, hg] at ha
  · cases m with
    | audio payload =>
      rcases payload with _ | b64payload
      · intro a ha txt heq; subst heq; simp [handleTts, hg] at ha
      · unfold handleTts
        rw [if_neg hg]
        rcases hb : env.b64 b64payload with _ | raw
        · simp only [hb]
          intro a ha txt heq; subst heq; simp at ha
        · simp only [hb]
          rcases hs : (if is_wav raw then strip_wav_header_and_return_pcm raw else some raw)
            with _ | pcm
          · simp only [hs]
            intro a ha txt heq; subst heq; simp at ha
          · simp only [hs]
            intro a ha txt heq; subst heq
            simp only [List.mem_map] at ha
            obtain ⟨ev, _, hcontra⟩ := ha
            exact absurd hcontra (by simp)
    | eventMsg et =>
      unfold handleTts
      rw [if_neg hg]
      dsimp only
      split_ifs <;> (intro a ha txt heq; subst heq; simp at ha)
    | errorMsg =>
      unfold handleTts
      rw [if_neg hg]
      intro a ha txt heq; subst heq; simp at ha
    | otherText => intro a ha txt heq; subst heq; simp [handleTts, hg] at ha
    | nonText => intro a ha txt heq; subst heq; simp [handleTts, hg] at ha

/-- One session step never sends any text to the TTS upstream other
than the fixed greeting; in particular `get_bot_reply` output is never
synthesized. -/
theorem sessionStep_ttsText (env : Env) (s : SessionState) (i : SessionInput) :
    ∀ a ∈ (sessionStep env s i).2, ∀ txt, a = BridgeAction.ttsText txt →
      txt = greetingText := by
  by_cases hc : s.closed
  · intro a ha txt heq; subst heq; simp [sessionStep, hc] at ha
  · cases i with
    | fromExotel m =>
      cases m with
      | malformedText => intro a ha txt heq; subst heq; simp [sessionStep, hc] at ha
      | nonObjectText => intro a ha txt heq; subst heq; simp [sessionStep, hc] at ha
      | disconnect => intro a ha txt heq; subst heq; simp [sessionStep, hc] at ha
      | evt e =>
        simp only [sessionStep, hc, Bool.false_eq_true, if_false]
        exact handleEvent_ttsText env s e
      | binary raw =>
        simp only [sessionStep, hc, Bool.false_eq_true, if_false]
        split_ifs with hw
        · rcases hs : strip_wav_header_and_return_pcm raw with _ | pcm
          · simp only [hs]
            intro a ha txt heq; subst heq; simp at ha
          · simp only [hs]
            exact forwardToStt_ttsText env s pcm
        · exact forwardToStt_ttsText env s raw
    | fromStt m =>
      simp only [sessionStep, hc, Bool.false_eq_true, if_false]
      intro a ha txt heq; subst heq; simp at ha
    | fromTts m =>
      simp only [sessionStep, hc, Bool.false_eq_true, if_false]
      exact handleTts_ttsText env s m

/-- C1 (refuting the claim; the code drops every final transcript): over
every session execution the transcript queue is append-only — no code
path ever dequeues `transcripts_q` — and no text other than the fixed
greeting is ever sent to the TTS upstream, so an enqueued final
transcript is never consumed by a reply turn and `get_bot_reply` is
never invoked.  Concretely, the demo STT exchange buffers and promotes
"hello", which then sits in the queue forever. -/
theorem c1_transcripts_never_consumed :
    (∀ env s inputs, ∃ t,
      (sessionRun env s inputs).1.transcriptsQ = s.transcriptsQ ++ t) ∧
    (∀ env s inputs, ∀ a ∈ (sessionRun env s inputs).2, ∀ txt,
      a = BridgeAction.ttsText txt → txt = greetingText) ∧
    (sessionRun demoEnv initialState demoSttInputs).1.transcriptsQ = ["hello".data] := by
  refine ⟨?_, ?_, by decide⟩
  · intro env s inputs
    exact (sessionRun_spec env inputs s).2.2.2.2.1
  · intro env s inputs
    induction inputs generalizing s with
    | nil => intro a ha txt heq; subst heq; simp [sessionRun] at ha
    | cons i is ih =>
      intro a ha txt heq
      have hunf : (sessionRun env s (i :: is)).2 =
          (sessionStep env s i).2 ++ (sessionRun env (sessionStep env s i).1 is).2 := rfl
      rw [hunf] at ha
      rcases List.mem_append.mp ha with h1 | h2
      · exact sessionStep_ttsText env s i a h1 txt heq
      · exact ih (sessionStep env s i).1 a h2 txt heq

/-- Witness for C1: in the demo greeting session the only TTS text
action is the greeting itself. -/
theorem c1_transcripts_never_consumed_witness :
    BridgeAction.ttsText greetingText ∈ (sessionRun demoEnv initialState demoMarkInputs).2 ∧
    greetingText = greetingText :=
  ⟨by decide,
   c1_transcripts_never_consumed.2.1 demoEnv initialState demoMarkInputs
     (BridgeAction.ttsText greetingText) (by decide) greetingText rfl⟩

/-! ## C6: TTS connect failure degrades gracefully -/

/-- C6: when the TTS upstream connect fails while handling `start`
(environment with `ttsOk = false`), the session logs the failure and
the greeting-skip notice, does not crash (the state is not closed), no
greeting task is started and nothing is sent to TTS or the telephony
socket, and a subsequent well-formed `media` event is still decoded and
forwarded to the STT connection exactly as usual. -/
theorem c6_tts_connect_failure (sttOk : Bool) (b64 : List Char → Option (List Nat))
    (s : SessionState) (sid : List Char) (srField : Option (Option Nat))
    (hclosed : s.closed = false) (htts : s.ttsConnected = false)
    (hgreet : s.greetingActive = false) (hstt : s.sttConnected = true) :
    (sessionStep ⟨false, sttOk, b64⟩ s
        (.fromExotel (.evt (.start (some sid) srField)))).2 =
      [BridgeAction.logErr, BridgeAction.logInfo] ∧
    (sessionStep ⟨false, sttOk, b64⟩ s
        (.fromExotel (.evt (.start (some sid) srField)))).1.closed = false ∧
    (sessionStep ⟨false, sttOk, b64⟩ s
        (.fromExotel (.evt (.start (some sid) srField)))).1.ttsConnected = false ∧
    (sessionStep ⟨false, sttOk, b64⟩ s
        (.fromExotel (.evt (.start (some sid) srField)))).1.greetingActive = false ∧
    (∀ pl ck pcm, pl ≠ [] → b64 pl = some pcm → is_wav pcm = false →
      sessionStep ⟨false, sttOk, b64⟩
          (sessionStep ⟨false, sttOk, b64⟩ s
            (.fromExotel (.evt (.start (some sid) srField)))).1
          (.fromExotel (.evt (.media (some pl) ck))) =
        ((sessionStep ⟨false, sttOk, b64⟩ s
            (.fromExotel (.evt (.start (some sid) srField)))).1,
         [BridgeAction.sttSend pcm])) := by
  have hstart : ∀ s2 : SessionState, s2.ttsConnected = false →
      (if s2.ttsConnected = true then (s2, ([] : List BridgeAction))
       else if (false : Bool) = true then
         ({ s2 with ttsConnected := true }, [BridgeAction.ttsConfig, BridgeAction.logInfo])
       else (s2, [BridgeAction.logErr])) = (s2, [BridgeAction.logErr]) := by
    intro s2 h2
    rw [if_neg (by simp [h2]), if_neg (by simp)]
  rcases srField with _ | ⟨_ | n⟩ <;>
    refine ⟨?_, ?_, ?_, ?_, ?_⟩ <;>
    first
      | (intro pl ck pcm hpl hb hwav
         simp [sessionStep, hclosed, handleEvent, htts, hgreet, mediaPayloadField, hpl, hb,
           hwav, forwardToStt, hstt])
      | (simp [sessionStep, hclosed, handleEvent, htts, hgreet])

/-- Witness for C6: a concrete failed-TTS start followed by a media
event; the media payload is decoded and forwarded to STT. -/
theorem c6_tts_connect_failure_witness :
    sessionStep ⟨false, true, fun _ => some [9, 9]⟩
        (sessionStep ⟨false, true, fun _ => some [9, 9]⟩
          { initialState with sttConnected := true }
          (.fromExotel (.evt (.start (some ['S']) none)))).1
        (.fromExotel (.evt (.media (some ['a']) none))) =
      ((sessionStep ⟨false, true, fun _ => some [9, 9]⟩
          { initialState with sttConnected := true }
          (.fromExotel (.evt (.start (some ['S']) none)))).1,
       [BridgeAction.sttSend [9, 9]]) :=
  (c6_tts_connect_failure true (fun _ => some [9, 9])
      { initialState with sttConnected := true } ['S'] none rfl rfl rfl rfl).2.2.2.2
    ['a'] none [9, 9] (by decide) rfl rfl

/-! ## C7: malformed inbound data -/

/-- Counterexample to C7 as stated: the inbound binary frame
`b"RIFF"` is a unit of data whose payload sniffs as WAV but fails WAV
decoding, and processing it aborts the session (the handler's binary
path performs the WAV strip outside any `try`, so the `wave` error
escapes the read loop and tears the session down). -/
theorem c7_counterexample :
    is_wav [82, 73, 70, 70] = true ∧
    strip_wav_header_and_return_pcm [82, 73, 70, 70] = none ∧
    (sessionStep demoEnv initialState (.fromExotel (.binary [82, 73, 70, 70]))).1.closed =
      true :=
  ⟨by decide, by decide, by decide⟩

/-- C7 as amended: for every inbound *text* message whose JSON is
malformed, or whose media payload is missing or fails base64 or WAV
decoding, the unit of data is dropped with a log record (a warning,
except a debug record when the payload field is absent or falsy), the
read loop continues and the session state is unchanged — in particular
never aborted.  (Binary frames are excluded: see the counterexample.) -/
theorem c7_amended_decode_failures (env : Env) (s : SessionState)
    (hclosed : s.closed = false) :
    (sessionStep env s (.fromExotel .malformedText) = (s, [BridgeAction.logWarn])) ∧
    (∀ pl ck, pl ≠ [] → env.b64 pl = none →
      sessionStep env s (.fromExotel (.evt (.media (some pl) ck))) =
        (s, [BridgeAction.logWarn])) ∧
    (∀ pl ck raw, pl ≠ [] → env.b64 pl = some raw → is_wav raw = true →
      strip_wav_header_and_return_pcm raw = none →
      sessionStep env s (.fromExotel (.evt (.media (some pl) ck))) =
        (s, [BridgeAction.logWarn])) ∧
    (∀ c, c ≠ 0 →
      sessionStep env s (.fromExotel (.evt (.media none (some c)))) =
        (s, [BridgeAction.logWarn])) ∧
    (sessionStep env s (.fromExotel (.evt (.media none none))) =
      (s, [BridgeAction.logDebug])) ∧
    (sessionStep env s (.fromExotel (.evt (.media (some []) none))) =
      (s, [BridgeAction.logDebug])) := by
  refine ⟨?_, ?_, ?_, ?_, ?_, ?_⟩
  · simp [sessionStep, hclosed]
  · intro pl ck hpl hb
    simp [sessionStep, hclosed, handleEvent, mediaPayloadField, hpl, hb]
  · intro pl ck raw hpl hb hw hs
    simp [sessionStep, hclosed, handleEvent, mediaPayloadField, hpl, hb, hw, hs]
  · intro c hc
    simp [sessionStep, hclosed, handleEvent, mediaPayloadField, hc]
  · simp [sessionStep, hclosed, handleEvent, mediaPayloadField]
  · simp [sessionStep, hclosed, handleEvent, mediaPayloadField]

/-- Witness for C7's amended statement: concrete malformed JSON and a
payload whose base64 decode fails are both dropped with a warning and
the state is unchanged. -/
theorem c7_amended_decode_failures_witness :
    sessionStep ⟨true, true, fun _ => none⟩ initialState (.fromExotel .malformedText) =
      (initialState, [BridgeAction.logWarn]) ∧
    sessionStep ⟨true, true, fun _ => none⟩ initialState
        (.fromExotel (.evt (.media (some ['a']) none))) =
      (initialState, [BridgeAction.logWarn]) :=
  ⟨(c7_amended_decode_failures ⟨true, true, fun _ => none⟩ initialState rfl).1,
   (c7_amended_decode_failures ⟨true, true, fun _ => none⟩ initialState rfl).2.1
     ['a'] none (by decide) rfl⟩
